import Mathlib

/-!
Verification development for the geoPuzzle walking-puzzle application
(`src/App.jsx`).  The definitions below are a shallow embedding of the
program's data model and of the pure logic of its operations:

* `haversineMeters` embeds the distance function `haversineMeters` (geo math);
* `onPosition` embeds the body of the `watchPosition` callback installed by
  `startWalk` (the proximity-collection step);
* `computeGrid` embeds `computeGrid` (grid-size policy);
* `sliceImage` embeds the geometry of `sliceImage` (which source rectangle of
  the image each produced fragment is cut from, and in which order);
* `isUuid`, `saveProgress`, `loadProgress`, `resetProgress` embed the progress
  synchronizer, with the remote store's answer and the clock passed in as
  explicit arguments;
* `addPiece`, `removePiece` and `applyOp` embed the admin piece edits and the
  other operations that touch the collected set.

Machine reals (JS doubles) are modelled by `ℝ`, JS array lengths and loop
counters by `ℕ`, nullable timestamps by `Option`, and an operation that may
perform no remote write returns `Option ProgressRecord` (`none` = no write).
-/

/-- Coordinate in degrees, as used throughout the app (`{lat, lng}`). -/
structure Coordinate where
  lat : ℝ
  lng : ℝ

/-- Puzzle piece as held in React state: id, coordinates, display order and
the (possibly empty) image-fragment reference. -/
structure Piece where
  id : String
  lat : ℝ
  lng : ℝ
  order : ℕ
  imageFragmentUrl : String

/-- Coordinate view of a piece; the source passes the piece object itself to
`haversineMeters`, which reads only `lat`/`lng`. -/
def Piece.coord (p : Piece) : Coordinate :=
  { lat := p.lat, lng := p.lng }

/-- Embedding of `haversineMeters(a, b)`: haversine great-circle distance with
Earth radius 6 371 000 m, translated literally from the source. -/
noncomputable def haversineMeters (a b : Coordinate) : ℝ :=
  let R : ℝ := 6371000
  let toRad : ℝ → ℝ := fun d => d * Real.pi / 180
  let dLat := toRad (b.lat - a.lat)
  let dLng := toRad (b.lng - a.lng)
  let lat1 := toRad a.lat
  let lat2 := toRad b.lat
  let sinDLat := Real.sin (dLat / 2)
  let sinDLng := Real.sin (dLng / 2)
  let h := sinDLat * sinDLat + Real.cos lat1 * Real.cos lat2 * sinDLng * sinDLng
  2 * R * Real.arcsin (Real.sqrt h)

open scoped Classical

/-- Embedding of the `watchPosition` callback body in `startWalk`: given the
current pieces, the collected ids and the collection radius, a position sample
produces the next collected-id list.  Mirrors the source: `orderedPieces` is the
piece list sorted by `order`, `remaining` drops already-collected pieces,
`newlyCollected` keeps those within `collectionRadius` (inclusive), and the new
state is the deduplicated concatenation `[...new Set([...prev, ...newly])]`
(applied only when `newlyCollected` is non-empty).  The `setUserPos` update has
no bearing on the collected set and is not modelled. -/
noncomputable def onPosition (pieces : List Piece) (collectedIds : List String)
    (collectionRadius : ℝ) (nextPos : Coordinate) : List String :=
  let orderedPieces := pieces.mergeSort (fun a b => a.order ≤ b.order)
  let remaining := orderedPieces.filter (fun p => !(collectedIds.contains p.id))
  let newlyCollected :=
    (remaining.filter (fun p => haversineMeters nextPos p.coord ≤ collectionRadius)).map
      (fun p => p.id)
  if newlyCollected.isEmpty then collectedIds else (collectedIds ++ newlyCollected).dedup

/-- Membership characterisation of one collection step: an id is in the output
iff it was already collected, or it is the id of a not-yet-collected piece
within `collectionRadius` (boundary inclusive) of the sample. -/
theorem onPosition_mem_iff (pieces : List Piece) (collectedIds : List String)
    (collectionRadius : ℝ) (nextPos : Coordinate) (pid : String) :
    pid ∈ onPosition pieces collectedIds collectionRadius nextPos ↔
      pid ∈ collectedIds ∨
        (pid ∉ collectedIds ∧
          ∃ p ∈ pieces, p.id = pid ∧ haversineMeters nextPos p.coord ≤ collectionRadius) := by
  classical
  unfold onPosition
  set newly :=
    (((pieces.mergeSort (fun a b => a.order ≤ b.order)).filter
        (fun p => !(collectedIds.contains p.id))).filter
      (fun p => haversineMeters nextPos p.coord ≤ collectionRadius)).map
      (fun p => p.id) with hnewly
  have hmem : ∀ s : String, s ∈ newly ↔
      s ∉ collectedIds ∧
        ∃ p ∈ pieces, p.id = s ∧ haversineMeters nextPos p.coord ≤ collectionRadius := by
    intro s
    rw [hnewly]
    simp only [List.mem_map, List.mem_filter, List.mem_mergeSort, Bool.not_eq_true',
      decide_eq_true_eq]
    constructor
    · rintro ⟨p, ⟨⟨hp, hnc⟩, hd⟩, rfl⟩
      exact ⟨by simpa using hnc, p, hp, rfl, hd⟩
    · rintro ⟨hnc, p, hp, rfl, hd⟩
      exact ⟨p, ⟨⟨hp, by simpa using hnc⟩, hd⟩, rfl⟩
  by_cases hempty : newly.isEmpty
  · rw [if_pos hempty]
    have hnil : newly = [] := List.isEmpty_iff.mp hempty
    constructor
    · exact fun h => Or.inl h
    · rintro (h | ⟨hnc, p, hp, hip, hd⟩)
      · exact h
      · exact absurd ((hmem pid).mpr ⟨hnc, p, hp, hip, hd⟩) (by simp [hnil])
  · rw [if_neg hempty]
    rw [List.mem_dedup, List.mem_append, hmem pid]

/-- C1: in one processed position sample, a piece id is newly added to the
collected set iff the piece was not already collected and its distance to the
sample is at most `collectionRadius` (boundary inclusive); already-collected
pieces are never re-evaluated and are simply kept. -/
theorem collection_boundary_inclusive_iff (pieces : List Piece)
    (collectedIds : List String) (collectionRadius : ℝ) (nextPos : Coordinate)
    (pid : String) :
    pid ∈ onPosition pieces collectedIds collectionRadius nextPos ↔
      pid ∈ collectedIds ∨
        (pid ∉ collectedIds ∧
          ∃ p ∈ pieces, p.id = pid ∧ haversineMeters nextPos p.coord ≤ collectionRadius) :=
  onPosition_mem_iff pieces collectedIds collectionRadius nextPos pid

/-- C9: the embedded distance function vanishes on equal coordinates, is
symmetric in its arguments, and is non-negative. -/
theorem distanceMeters_pseudometric (a b : Coordinate) :
    haversineMeters a a = 0 ∧ haversineMeters a b = haversineMeters b a ∧
      0 ≤ haversineMeters a b := by
  refine ⟨?_, ?_, ?_⟩
  · unfold haversineMeters
    simp
  · have hsin : ∀ x y : ℝ,
        Real.sin ((x - y) * Real.pi / 180 / 2) = -Real.sin ((y - x) * Real.pi / 180 / 2) := by
      intro x y
      rw [show (x - y) * Real.pi / 180 / 2 = -((y - x) * Real.pi / 180 / 2) by ring,
        Real.sin_neg]
    simp only [haversineMeters]
    congr 1
    congr 1
    congr 1
    rw [hsin b.lat a.lat, hsin b.lng a.lng]
    ring
  · unfold haversineMeters
    have h1 : (0 : ℝ) ≤ 2 * 6371000 := by norm_num
    exact mul_nonneg h1 (Real.arcsin_nonneg.mpr (Real.sqrt_nonneg _))

/-- Grid dimensions, as returned by `computeGrid` (`{cols, rows}`). -/
structure Grid where
  cols : ℕ
  rows : ℕ
deriving DecidableEq

/-- Embedding of `computeGrid(count)`: `safeCount = Math.max(1, count)`,
`cols = Math.ceil(Math.sqrt(safeCount))`, `rows = Math.ceil(safeCount / cols)`,
with JS floating-point arithmetic idealised over `ℝ`. -/
noncomputable def computeGrid (count : ℕ) : Grid :=
  let safeCount := max 1 count
  let cols := ⌈Real.sqrt (safeCount : ℝ)⌉₊
  let rows := ⌈(safeCount : ℝ) / (cols : ℝ)⌉₊
  { cols := cols, rows := rows }

/-- Evaluation helper: the ceiling of a real square root of a natural number,
pinned between consecutive squares. -/
lemma natCeil_sqrt_eq {n m : ℕ} (hm : m ≠ 0) (h1 : (((m - 1 : ℕ) : ℝ)) ^ 2 < n)
    (h2 : (n : ℝ) ≤ (m : ℝ) ^ 2) : ⌈Real.sqrt (n : ℝ)⌉₊ = m := by
  rw [Nat.ceil_eq_iff hm]
  constructor
  · exact (Real.lt_sqrt (Nat.cast_nonneg (m - 1))).mpr h1
  · calc Real.sqrt (n : ℝ) ≤ Real.sqrt ((m : ℝ) ^ 2) := Real.sqrt_le_sqrt h2
      _ = m := Real.sqrt_sq (Nat.cast_nonneg m)

/-- Evaluation helper: the ceiling of a quotient of natural number casts,
pinned between consecutive multiples of the divisor. -/
lemma natCeil_div_eq {a b m : ℕ} (hb : 0 < b) (hm : m ≠ 0)
    (h1 : (((m - 1 : ℕ) : ℝ)) * b < a) (h2 : (a : ℝ) ≤ (m : ℝ) * b) :
    ⌈(a : ℝ) / (b : ℝ)⌉₊ = m := by
  have hb0 : (0 : ℝ) < b := by exact_mod_cast hb
  rw [Nat.ceil_eq_iff hm]
  constructor
  · exact (lt_div_iff₀ hb0).mpr h1
  · exact (div_le_iff₀ hb0).mpr h2

lemma computeGrid_zero : computeGrid 0 = { cols := 1, rows := 1 } := by
  simp only [computeGrid, Grid.mk.injEq]
  have hc : ⌈Real.sqrt ((max 1 0 : ℕ) : ℝ)⌉₊ = 1 :=
    natCeil_sqrt_eq (by norm_num) (by norm_num) (by norm_num)
  refine ⟨hc, ?_⟩
  rw [hc]
  exact natCeil_div_eq (by norm_num) (by norm_num) (by norm_num) (by norm_num)

lemma computeGrid_one : computeGrid 1 = { cols := 1, rows := 1 } := by
  simp only [computeGrid, Grid.mk.injEq]
  have hc : ⌈Real.sqrt ((max 1 1 : ℕ) : ℝ)⌉₊ = 1 :=
    natCeil_sqrt_eq (by norm_num) (by norm_num) (by norm_num)
  refine ⟨hc, ?_⟩
  rw [hc]
  exact natCeil_div_eq (by norm_num) (by norm_num) (by norm_num) (by norm_num)

lemma computeGrid_nine : computeGrid 9 = { cols := 3, rows := 3 } := by
  simp only [computeGrid, Grid.mk.injEq]
  have hc : ⌈Real.sqrt ((max 1 9 : ℕ) : ℝ)⌉₊ = 3 :=
    natCeil_sqrt_eq (by norm_num) (by norm_num) (by norm_num)
  refine ⟨hc, ?_⟩
  rw [hc]
  exact natCeil_div_eq (by norm_num) (by norm_num) (by norm_num) (by norm_num)

lemma computeGrid_ten : computeGrid 10 = { cols := 4, rows := 3 } := by
  simp only [computeGrid, Grid.mk.injEq]
  have hc : ⌈Real.sqrt ((max 1 10 : ℕ) : ℝ)⌉₊ = 4 :=
    natCeil_sqrt_eq (by norm_num) (by norm_num) (by norm_num)
  refine ⟨hc, ?_⟩
  rw [hc]
  exact natCeil_div_eq (by norm_num) (by norm_num) (by norm_num) (by norm_num)

lemma computeGrid_cols_pos (count : ℕ) : 0 < (computeGrid count).cols := by
  have h : (0 : ℝ) < Real.sqrt ((max 1 count : ℕ) : ℝ) := by
    apply Real.sqrt_pos.mpr
    have : (1 : ℕ) ≤ max 1 count := le_max_left 1 count
    exact_mod_cast Nat.lt_of_lt_of_le Nat.zero_lt_one this
  exact Nat.one_le_ceil_iff.mpr h

lemma computeGrid_mul_ge (count : ℕ) :
    count ≤ (computeGrid count).cols * (computeGrid count).rows := by
  have hcols := computeGrid_cols_pos count
  have hcolsR : (0 : ℝ) < ((computeGrid count).cols : ℝ) := by exact_mod_cast hcols
  have hle : ((max 1 count : ℕ) : ℝ) / ((computeGrid count).cols : ℝ) ≤
      ((computeGrid count).rows : ℝ) := Nat.le_ceil _
  have hmul : ((max 1 count : ℕ) : ℝ) ≤
      ((computeGrid count).rows : ℝ) * ((computeGrid count).cols : ℝ) :=
    (div_le_iff₀ hcolsR).mp hle
  have hnat : (max 1 count : ℕ) ≤ (computeGrid count).rows * (computeGrid count).cols := by
    exact_mod_cast hmul
  calc count ≤ max 1 count := le_max_right 1 count
    _ ≤ (computeGrid count).rows * (computeGrid count).cols := hnat
    _ = (computeGrid count).cols * (computeGrid count).rows := Nat.mul_comm _ _

/-- C3 (counterexample): at `pieceCount = 0` the code returns `rows = 1`,
while the claimed formula `rows = ceil(pieceCount / cols)` yields `0`; the code
divides `safeCount = max(1, pieceCount)`, not `pieceCount`, by `cols`. -/
theorem computeGrid_zero_rows_cex :
    ¬ ((computeGrid 0).rows = ⌈(0 : ℝ) / (((computeGrid 0).cols : ℕ) : ℝ)⌉₊) := by
  rw [computeGrid_zero]
  norm_num

/-- C3 (amended): `computeGrid(pieceCount)` returns
`cols = ceil(sqrt(max(1, pieceCount)))` and
`rows = ceil(max(1, pieceCount) / cols)` (which equals
`ceil(pieceCount / cols)` for every `pieceCount ≥ 1`), satisfies
`cols * rows ≥ pieceCount`, and in particular `computeGrid(9) = (3, 3)` and
`computeGrid(10) = (4, 3)`. -/
theorem computeGrid_spec (pieceCount : ℕ) :
    (computeGrid pieceCount).cols = ⌈Real.sqrt ((max 1 pieceCount : ℕ) : ℝ)⌉₊ ∧
    (computeGrid pieceCount).rows =
      ⌈((max 1 pieceCount : ℕ) : ℝ) / (((computeGrid pieceCount).cols : ℕ) : ℝ)⌉₊ ∧
    (1 ≤ pieceCount →
      (computeGrid pieceCount).rows =
        ⌈(pieceCount : ℝ) / (((computeGrid pieceCount).cols : ℕ) : ℝ)⌉₊) ∧
    pieceCount ≤ (computeGrid pieceCount).cols * (computeGrid pieceCount).rows ∧
    computeGrid 9 = { cols := 3, rows := 3 } ∧
    computeGrid 10 = { cols := 4, rows := 3 } := by
  refine ⟨rfl, rfl, ?_, computeGrid_mul_ge pieceCount, computeGrid_nine, computeGrid_ten⟩
  intro h1
  have hmax : max 1 pieceCount = pieceCount := max_eq_right h1
  calc (computeGrid pieceCount).rows
      = ⌈((max 1 pieceCount : ℕ) : ℝ) / (((computeGrid pieceCount).cols : ℕ) : ℝ)⌉₊ := rfl
    _ = ⌈(pieceCount : ℝ) / (((computeGrid pieceCount).cols : ℕ) : ℝ)⌉₊ := by rw [hmax]

/-- Closed witness for the conditional conjunct of `computeGrid_spec`. -/
theorem computeGrid_spec_witness :
    (1 : ℕ) ≤ 9 ∧
      (computeGrid 9).rows = ⌈((9 : ℕ) : ℝ) / (((computeGrid 9).cols : ℕ) : ℝ)⌉₊ :=
  ⟨by norm_num, (computeGrid_spec 9).2.2.1 (by norm_num)⟩

/-- Fragment produced by `sliceImage`: the 1-based `order` counter, the source
rectangle `(sx, sy, w, h)` of the image that `drawImage` copies for this
fragment (the re-encoded PNG pixel payload is exactly that rectangle and is not
modelled further). -/
structure Fragment where
  order : ℕ
  sx : ℕ
  sy : ℕ
  w : ℕ
  h : ℕ
deriving DecidableEq

/-- Embedding of `sliceImage(dataUrl, cols, rows)` for an image whose decoded
pixel size is `imgWidth x imgHeight`: `tileW = floor(imgWidth / cols)`,
`tileH = floor(imgHeight / rows)`, and a row-major double loop (`r` outer, `c`
inner) emits one fragment per cell, cut from `(c * tileW, r * tileH)`, with a
running `order` counter starting at 1. -/
def sliceImage (imgWidth imgHeight cols rows : ℕ) : List Fragment :=
  let tileW := imgWidth / cols
  let tileH := imgHeight / rows
  (List.range rows).flatMap (fun r =>
    (List.range cols).map (fun c =>
      { order := r * cols + c + 1, sx := c * tileW, sy := r * tileH, w := tileW, h := tileH }))

/-- Row-major double loop over a grid, re-expressed as a single map over the
flat fragment index `k = r * cols + c`. -/
lemma grid_flatMap_eq (tileW tileH cols : ℕ) : ∀ rows : ℕ,
    (List.range rows).flatMap (fun r =>
      (List.range cols).map (fun c =>
        Fragment.mk (r * cols + c + 1) (c * tileW) (r * tileH) tileW tileH)) =
    (List.range (rows * cols)).map (fun k =>
      Fragment.mk (k + 1) ((k % cols) * tileW) ((k / cols) * tileH) tileW tileH) := by
  intro rows
  induction rows with
  | zero => simp
  | succ n ih =>
    rw [List.range_succ, List.flatMap_append, ih, Nat.succ_mul, List.range_add,
      List.map_append]
    congr 1
    simp only [List.flatMap_cons, List.flatMap_nil, List.append_nil, List.map_map]
    apply List.map_congr_left
    intro c hc
    have hclt : c < cols := List.mem_range.mp hc
    have hcpos : 0 < cols := Nat.lt_of_le_of_lt (Nat.zero_le c) hclt
    have h1 : (n * cols + c) % cols = c := by
      rw [Nat.add_comm, Nat.mul_comm, Nat.add_mul_mod_self_left, Nat.mod_eq_of_lt hclt]
    have h2 : (n * cols + c) / cols = n := by
      rw [Nat.add_comm, Nat.mul_comm, Nat.add_mul_div_left _ _ hcpos,
        Nat.div_eq_of_lt hclt, Nat.zero_add]
    simp [Function.comp, Fragment.mk.injEq, h1, h2]

/-- Closed form of `sliceImage` indexed by the flat fragment position. -/
lemma sliceImage_eq_map_range (imgWidth imgHeight cols rows : ℕ) :
    sliceImage imgWidth imgHeight cols rows =
      (List.range (rows * cols)).map (fun k =>
        { order := k + 1, sx := (k % cols) * (imgWidth / cols),
          sy := (k / cols) * (imgHeight / rows),
          w := imgWidth / cols, h := imgHeight / rows }) :=
  grid_flatMap_eq (imgWidth / cols) (imgHeight / rows) cols rows

/-- C4: `sliceImage` produces exactly `cols * rows` fragments in row-major
order with orders `1..cols*rows`; the fragment at flat index `k` has order
`k + 1`, is cut at column `k % cols` and row `k / cols`, and every tile
measures `floor(imgWidth/cols) x floor(imgHeight/rows)`; for a 300x300 image
with a 3x3 grid this gives nine 100x100 fragments, top-left first. -/
theorem sliceImage_spec (imgWidth imgHeight cols rows : ℕ) :
    (sliceImage imgWidth imgHeight cols rows).length = cols * rows ∧
    (∀ k, k < cols * rows →
      (sliceImage imgWidth imgHeight cols rows)[k]? =
        some { order := k + 1, sx := (k % cols) * (imgWidth / cols),
               sy := (k / cols) * (imgHeight / rows),
               w := imgWidth / cols, h := imgHeight / rows }) ∧
    sliceImage 300 300 3 3 =
      [⟨1, 0, 0, 100, 100⟩, ⟨2, 100, 0, 100, 100⟩, ⟨3, 200, 0, 100, 100⟩,
       ⟨4, 0, 100, 100, 100⟩, ⟨5, 100, 100, 100, 100⟩, ⟨6, 200, 100, 100, 100⟩,
       ⟨7, 0, 200, 100, 100⟩, ⟨8, 100, 200, 100, 100⟩, ⟨9, 200, 200, 100, 100⟩] := by
  refine ⟨?_, ?_, by decide⟩
  · rw [sliceImage_eq_map_range]
    simp [Nat.mul_comm]
  · intro k hk
    rw [sliceImage_eq_map_range]
    have hk2 : k < rows * cols := by rw [Nat.mul_comm]; exact hk
    simp [List.getElem?_map, List.getElem?_range, hk2]

/-- Closed witness for the indexed conjunct of `sliceImage_spec`, evaluated at
flat index 4 of the 3x3 slicing of a 300x300 image. -/
theorem sliceImage_spec_witness :
    (4 : ℕ) < 3 * 3 ∧
      (sliceImage 300 300 3 3)[4]? = some ⟨5, 100, 100, 100, 100⟩ :=
  ⟨by decide, (sliceImage_spec 300 300 3 3).2.1 4 (by decide)⟩

/-- Hex-digit test used by the UUID regex character class `[0-9a-f]` under the
case-insensitive flag. -/
def isHexDigit (c : Char) : Bool :=
  (('0' ≤ c.toLower ∧ c.toLower ≤ '9') ∨ ('a' ≤ c.toLower ∧ c.toLower ≤ 'f'))

/-- Character admitted at position `i` of a UUID by the regex
`^[0-9a-f]{8}-[0-9a-f]{4}-[1-5][0-9a-f]{3}-[89ab][0-9a-f]{3}-[0-9a-f]{12}$`:
dashes at 8, 13, 18, 23; the version digit `[1-5]` at 14; the variant nibble
`[89ab]` at 19; hex everywhere else. -/
def uuidCharOk (i : ℕ) (c : Char) : Bool :=
  if i = 8 ∨ i = 13 ∨ i = 18 ∨ i = 23 then c = '-'
  else if i = 14 then ('1' ≤ c ∧ c ≤ '5')
  else if i = 19 then (c = '8' ∨ c = '9' ∨ c = 'a' ∨ c = 'b')
  else isHexDigit c

/-- Embedding of `isUuid(value)`: the anchored, case-insensitive UUID regex of
the source, spelled out positionally (lower-casing first models the `/i`
flag).  The JS `value || ''` null guard is outside the `String` domain. -/
def isUuid (value : String) : Bool :=
  let cs := value.data.map Char.toLower
  cs.length = 36 && (List.range 36).all (fun i => uuidCharOk i (cs.getD i ' '))

/-- Row shape upserted into the `progress` table by `saveProgress`. -/
structure ProgressRecord where
  route_id : String
  device_id : String
  collected_piece_ids : List String
  completed_at : Option String
  updated_at : String
deriving DecidableEq

/-- Embedding of `saveProgress(nextCollectedIds)`: the early-return guard
(`!deviceId || !isUuid(route.id) || route.id !== selectedRouteId`) yields no
remote write (`none`); otherwise the upserted row keeps only UUID-valid ids,
carries `completed_at = now` exactly when every piece is covered
(`pieces.length > 0 && validIds.length === pieces.length`), and always stamps
`updated_at = now`.  The state fields read by the source (`route.id`,
`selectedRouteId`, `deviceId`, `pieces.length`) and the clock are explicit
arguments. -/
def saveProgress (routeId selectedRouteId deviceId : String) (piecesLength : ℕ)
    (nextCollectedIds : List String) (now : String) : Option ProgressRecord :=
  if deviceId = "" ∨ ¬ isUuid routeId ∨ routeId ≠ selectedRouteId then none
  else
    let validIds := nextCollectedIds.filter (fun id => isUuid id)
    let completedAt :=
      if 0 < piecesLength ∧ validIds.length = piecesLength then some now else none
    some { route_id := routeId, device_id := deviceId, collected_piece_ids := validIds,
           completed_at := completedAt, updated_at := now }

/-- Embedding of `resetProgress()`: the collected set becomes empty and
`saveProgress([])` is issued with the same state. -/
def resetProgress (routeId selectedRouteId deviceId : String) (piecesLength : ℕ)
    (now : String) : List String × Option ProgressRecord :=
  ([], saveProgress routeId selectedRouteId deviceId piecesLength [] now)

/-- Embedding of `loadProgress(routeId, pieceIds)`: the early-return guard
(`!routeId || !deviceId || !isUuid(routeId)`) leaves the collected set
untouched (`none`); otherwise the persisted ids (the remote store's answer,
`data?.collected_piece_ids ?? []`, passed in as `persistedIds`; a remote read
error likewise updates nothing) are intersected with the current piece ids and
become the new collected set. -/
def loadProgress (routeId deviceId : String) (persistedIds : List String)
    (pieceIds : List String) : Option (List String) :=
  if routeId = "" ∨ deviceId = "" ∨ ¬ isUuid routeId then none
  else some (persistedIds.filter (fun id => pieceIds.contains id))

/-- Route record; `DEFAULT_ROUTE` below is the built-in placeholder route. -/
structure Route where
  id : String
  name : String
  center : Coordinate
  radiusM : ℕ

/-- Embedding of the `DEFAULT_ROUTE` constant. -/
noncomputable def DEFAULT_ROUTE : Route :=
  { id := "route-1", name := "Select a Route",
    center := { lat := 37.7749, lng := -122.4194 }, radiusM := 800 }

/-- C10: `saveProgress` performs a remote write iff the device id is
non-empty, the route id is a valid UUID and it matches the selected route; in
particular the built-in default route (id `route-1`, not a UUID) is never
persisted, and neither is a route whose id differs from the selected one (as
after `newRoute`, which clears the selection). -/
theorem saveProgress_guard_iff (routeId selectedRouteId deviceId : String)
    (piecesLength : ℕ) (nextCollectedIds : List String) (now : String) :
    (saveProgress routeId selectedRouteId deviceId piecesLength nextCollectedIds now = none ↔
      (deviceId = "" ∨ ¬ isUuid routeId ∨ routeId ≠ selectedRouteId)) ∧
    isUuid DEFAULT_ROUTE.id = false ∧
    saveProgress DEFAULT_ROUTE.id selectedRouteId deviceId piecesLength
      nextCollectedIds now = none := by
  have hdef : DEFAULT_ROUTE.id = "route-1" := rfl
  have huuid : isUuid "route-1" = false := by decide
  refine ⟨?_, by rw [hdef]; exact huuid, ?_⟩
  · simp only [saveProgress]
    split_ifs with h
    · simpa using h
    · simpa using h
  · rw [hdef]
    have : ¬ isUuid "route-1" := by simp [huuid]
    simp [saveProgress, this]

/-- Sample valid (version-4-style, regex-accepted) UUID used in closed
evaluations. -/
def sampleUuid : String := "123e4567-e89b-12d3-a456-426614174000"

/-- C7 (counterexample): with one piece and a collected set `["p1"]` of size
1 (so the raw collected size equals the piece count, which is positive) the
persisted record still carries `completed_at = null`, because the code
compares the piece count with the size of the UUID-filtered id list, which
drops the malformed id `p1`. -/
theorem saveProgress_completion_cex :
    saveProgress sampleUuid sampleUuid "d" 1 ["p1"] "t" =
      some { route_id := sampleUuid, device_id := "d", collected_piece_ids := [],
             completed_at := none, updated_at := "t" } ∧
    (["p1"] : List String).length = 1 ∧ 0 < 1 := by
  decide

/-- C7 (amended): whenever `saveProgress` writes a record, the record's id
list is the input filtered to UUID-valid ids (malformed ids dropped
silently), `updated_at` is always stamped with the current time, and
`completed_at` is the current time iff the piece count is positive and the
number of UUID-valid collected ids equals the piece count. -/
theorem saveProgress_record_spec (routeId selectedRouteId deviceId : String)
    (piecesLength : ℕ) (nextCollectedIds : List String) (now : String)
    (rec : ProgressRecord)
    (h : saveProgress routeId selectedRouteId deviceId piecesLength nextCollectedIds now =
      some rec) :
    rec.collected_piece_ids = nextCollectedIds.filter (fun id => isUuid id) ∧
    rec.updated_at = now ∧
    (rec.completed_at = some now ↔
      0 < piecesLength ∧
        (nextCollectedIds.filter (fun id => isUuid id)).length = piecesLength) := by
  unfold saveProgress at h
  by_cases hguard : deviceId = "" ∨ ¬ isUuid routeId ∨ routeId ≠ selectedRouteId
  · rw [if_pos hguard] at h
    exact absurd h (by simp)
  · rw [if_neg hguard] at h
    simp only [Option.some.injEq] at h
    subst h
    refine ⟨rfl, rfl, ?_⟩
    by_cases hc : 0 < piecesLength ∧
        (nextCollectedIds.filter (fun id => isUuid id)).length = piecesLength
    · simp [hc]
    · simp [hc]

/-- Closed witness for `saveProgress_record_spec`, applied to a successful
write with no collected ids. -/
theorem saveProgress_record_spec_witness :
    ({ route_id := sampleUuid, device_id := "d", collected_piece_ids := [],
       completed_at := none, updated_at := "t" } : ProgressRecord).collected_piece_ids =
        ([] : List String).filter (fun id => isUuid id) ∧
    ({ route_id := sampleUuid, device_id := "d", collected_piece_ids := [],
       completed_at := none, updated_at := "t" } : ProgressRecord).updated_at = "t" ∧
    (({ route_id := sampleUuid, device_id := "d", collected_piece_ids := [],
        completed_at := none, updated_at := "t" } : ProgressRecord).completed_at = some "t" ↔
      0 < 0 ∧ (([] : List String).filter (fun id => isUuid id)).length = 0) :=
  saveProgress_record_spec sampleUuid sampleUuid "d" 0 [] "t" _ (by decide)

/-- C2: the collected set only grows under position samples (each update is a
union with the previous collected ids), and `resetProgress` empties it
regardless of prior history, with any remote write it issues persisting the
empty id list. -/
theorem collected_monotone_and_reset :
    (∀ (pieces : List Piece) (collectedIds : List String) (collectionRadius : ℝ)
        (nextPos : Coordinate),
      collectedIds ⊆ onPosition pieces collectedIds collectionRadius nextPos) ∧
    (∀ (routeId selectedRouteId deviceId : String) (piecesLength : ℕ) (now : String),
      (resetProgress routeId selectedRouteId deviceId piecesLength now).1 = [] ∧
      ∀ rec : ProgressRecord,
        (resetProgress routeId selectedRouteId deviceId piecesLength now).2 = some rec →
          rec.collected_piece_ids = []) := by
  constructor
  · intro pieces collectedIds collectionRadius nextPos pid hpid
    exact (onPosition_mem_iff pieces collectedIds collectionRadius nextPos pid).mpr
      (Or.inl hpid)
  · intro routeId selectedRouteId deviceId piecesLength now
    refine ⟨rfl, ?_⟩
    intro rec h
    unfold resetProgress saveProgress at h
    by_cases hguard : deviceId = "" ∨ ¬ isUuid routeId ∨ routeId ≠ selectedRouteId
    · rw [if_pos hguard] at h
      exact absurd h (by simp)
    · rw [if_neg hguard] at h
      simp only [Option.some.injEq] at h
      subst h
      rfl

/-- Closed witness for `collected_monotone_and_reset`, applied to a reset that
does reach the remote store. -/
theorem collected_monotone_and_reset_witness :
    (resetProgress sampleUuid sampleUuid "d" 0 "t").1 = [] ∧
    ({ route_id := sampleUuid, device_id := "d", collected_piece_ids := [],
       completed_at := none, updated_at := "t" } : ProgressRecord).collected_piece_ids = [] :=
  ⟨(collected_monotone_and_reset.2 sampleUuid sampleUuid "d" 0 "t").1,
   (collected_monotone_and_reset.2 sampleUuid sampleUuid "d" 0 "t").2 _ (by decide)⟩

/-- React state relevant to the collected-set invariant: the piece list and
the collected id list. -/
structure WalkState where
  pieces : List Piece
  collectedIds : List String

/-- Embedding of `addPiece(point)`: appends a fresh piece (id from
`crypto.randomUUID()`, passed in as `newId`) with `order = prev.length + 1`
and an empty fragment reference; the collected ids are untouched. -/
def addPiece (point : Coordinate) (newId : String) (st : WalkState) : WalkState :=
  { st with
    pieces := st.pieces ++
      [{ id := newId, lat := point.lat, lng := point.lng,
         order := st.pieces.length + 1, imageFragmentUrl := "" }] }

/-- Embedding of `removePiece(pieceId)`: filters the piece out of the piece
list and its id out of the collected ids; no other field of any surviving
piece is modified. -/
def removePiece (pieceId : String) (st : WalkState) : WalkState :=
  { pieces := st.pieces.filter (fun piece => piece.id ≠ pieceId),
    collectedIds := st.collectedIds.filter (fun id => id ≠ pieceId) }

/-- Operations of the source that replace `collectedIds` or `pieces`:
admin piece placement/removal, a position sample while watching, the reset
button, and a progress load (whose remote answer is `persistedIds`). -/
inductive WalkOp where
  | add (point : Coordinate) (newId : String)
  | remove (pieceId : String)
  | collect (collectionRadius : ℝ) (nextPos : Coordinate)
  | reset
  | load (routeId deviceId : String) (persistedIds : List String)

/-- One step of the event loop: how each operation transforms the state, read
off the corresponding source handler (`loadProgress` is called by `loadRoute`
with exactly the ids of the pieces being installed). -/
noncomputable def applyOp (op : WalkOp) (st : WalkState) : WalkState :=
  match op with
  | .add point newId => addPiece point newId st
  | .remove pieceId => removePiece pieceId st
  | .collect collectionRadius nextPos =>
      { st with collectedIds := onPosition st.pieces st.collectedIds collectionRadius nextPos }
  | .reset => { st with collectedIds := [] }
  | .load routeId deviceId persistedIds =>
      { st with collectedIds :=
          match loadProgress routeId deviceId persistedIds (st.pieces.map (fun p => p.id)) with
          | none => st.collectedIds
          | some ids => ids }

/-- Invariant of C6: every collected id is the id of a current piece. -/
def CollectedInv (st : WalkState) : Prop :=
  ∀ pid ∈ st.collectedIds, pid ∈ st.pieces.map (fun p => p.id)

/-- C6: a progress load installs only ids of currently present pieces (the
persisted set is intersected with the valid piece ids), and every operation —
add, remove, position sample, reset, load — preserves the invariant that the
collected set is a subset of the current piece ids; in particular a removed
piece's id is also removed from the collected set. -/
theorem collectedIds_subset_invariant :
    (∀ (routeId deviceId : String) (persistedIds pieceIds ids : List String),
      loadProgress routeId deviceId persistedIds pieceIds = some ids → ids ⊆ pieceIds) ∧
    (∀ (st : WalkState) (op : WalkOp), CollectedInv st → CollectedInv (applyOp op st)) := by
  have hload : ∀ (routeId deviceId : String) (persistedIds pieceIds ids : List String),
      loadProgress routeId deviceId persistedIds pieceIds = some ids → ids ⊆ pieceIds := by
    intro routeId deviceId persistedIds pieceIds ids h
    unfold loadProgress at h
    by_cases hguard : routeId = "" ∨ deviceId = "" ∨ ¬ isUuid routeId
    · rw [if_pos hguard] at h
      exact absurd h (by simp)
    · rw [if_neg hguard] at h
      simp only [Option.some.injEq] at h
      subst h
      intro x hx
      have := (List.mem_filter.mp hx).2
      simpa using this
  refine ⟨hload, ?_⟩
  intro st op hinv
  cases op with
  | add point newId =>
      intro pid hpid
      have hthis := hinv pid hpid
      have hgoal : pid ∈ List.map (fun p => p.id)
          (st.pieces ++
            [{ id := newId, lat := point.lat, lng := point.lng,
               order := st.pieces.length + 1, imageFragmentUrl := "" }]) := by
        rw [List.map_append]
        exact List.mem_append.mpr (Or.inl hthis)
      exact hgoal
  | remove pieceId =>
      intro pid hpid
      have hpid2 : pid ∈ st.collectedIds.filter (fun id => id ≠ pieceId) := hpid
      simp only [List.mem_filter, decide_eq_true_eq] at hpid2
      obtain ⟨hmem, hne⟩ := hpid2
      have hthis := hinv pid hmem
      simp only [List.mem_map] at hthis
      obtain ⟨p, hp, hpe⟩ := hthis
      have hgoal : pid ∈ List.map (fun p => p.id)
          (st.pieces.filter (fun piece => piece.id ≠ pieceId)) := by
        refine List.mem_map.mpr ⟨p, List.mem_filter.mpr ⟨hp, ?_⟩, hpe⟩
        simp [hpe, hne]
      exact hgoal
  | collect collectionRadius nextPos =>
      intro pid hpid
      have hm := (onPosition_mem_iff st.pieces st.collectedIds collectionRadius nextPos pid).mp hpid
      rcases hm with h | ⟨hnc, p, hp, hpe, hd⟩
      · exact hinv pid h
      · exact List.mem_map.mpr ⟨p, hp, hpe⟩
  | reset =>
      intro pid hpid
      exact absurd (show pid ∈ ([] : List String) from hpid) (by simp)
  | load routeId deviceId persistedIds =>
      intro pid hpid
      have hpid2 : pid ∈
          (match loadProgress routeId deviceId persistedIds (st.pieces.map (fun p => p.id)) with
            | none => st.collectedIds
            | some ids => ids) := hpid
      show pid ∈ List.map (fun p => p.id) st.pieces
      rcases hload2 : loadProgress routeId deviceId persistedIds (st.pieces.map (fun p => p.id))
        with _ | ids
      · rw [hload2] at hpid2
        exact hinv pid hpid2
      · rw [hload2] at hpid2
        exact hload routeId deviceId persistedIds (st.pieces.map (fun p => p.id)) ids hload2 hpid2

/-- Two-piece state with dense orders, used in closed evaluations. -/
noncomputable def stTwoPieces : WalkState :=
  { pieces := [{ id := "a", lat := 0, lng := 0, order := 1, imageFragmentUrl := "" },
               { id := "b", lat := 0, lng := 0, order := 2, imageFragmentUrl := "" }],
    collectedIds := [] }

/-- One-piece state whose single piece is collected, used in closed
evaluations. -/
noncomputable def stOneCollected : WalkState :=
  { pieces := [{ id := "a", lat := 0, lng := 0, order := 1, imageFragmentUrl := "" }],
    collectedIds := ["a"] }

/-- Closed witness for `collectedIds_subset_invariant`: a concrete load whose
persisted set contains a stale id, and a concrete removal of a collected
piece. -/
theorem collectedIds_subset_invariant_witness :
    (["a"] : List String) ⊆ ["a"] ∧
    CollectedInv (applyOp (WalkOp.remove "a") stOneCollected) :=
  ⟨collectedIds_subset_invariant.1 sampleUuid "d" ["a", "stale"] ["a"] ["a"] (by decide),
   collectedIds_subset_invariant.2 stOneCollected (WalkOp.remove "a")
     (by intro pid h; simpa [stOneCollected] using h)⟩

/-- C8 (counterexample): removing the first of two pieces (orders 1 and 2)
leaves a single piece that still carries order 2, not the dense renumbering
1..1 the claim requires after any size change. -/
theorem removePiece_order_gap_cex :
    ((removePiece "a" stTwoPieces).pieces.map (fun p => p.order)) = [2] ∧
    (removePiece "a" stTwoPieces).pieces.length = 1 ∧ ([2] : List ℕ) ≠ [1] := by
  refine ⟨?_, ?_, by decide⟩
  · have h : (removePiece "a" stTwoPieces).pieces =
        [{ id := "b", lat := 0, lng := 0, order := 2, imageFragmentUrl := "" }] := rfl
    rw [h]
    rfl
  · have h : (removePiece "a" stTwoPieces).pieces =
        [{ id := "b", lat := 0, lng := 0, order := 2, imageFragmentUrl := "" }] := rfl
    rw [h]
    rfl

/-- C8 (amended): `addPiece` appends with `order = previous count + 1`, so an
add extends dense orders `1..N` to `1..N+1`; but `removePiece` only filters —
every surviving piece keeps its previous `order` field unchanged (no dense
reassignment on removal; orders are re-densified only when the route is saved,
`piece_order = index + 1` in `saveRoute`). -/
theorem pieceOrder_add_remove_spec :
    (∀ (st : WalkState) (point : Coordinate) (newId : String),
      (addPiece point newId st).pieces.map (fun p => p.order) =
        (st.pieces.map (fun p => p.order)) ++ [st.pieces.length + 1]) ∧
    (∀ (st : WalkState) (point : Coordinate) (newId : String),
      st.pieces.map (fun p => p.order) = (List.range st.pieces.length).map (fun i => i + 1) →
      (addPiece point newId st).pieces.map (fun p => p.order) =
        (List.range (st.pieces.length + 1)).map (fun i => i + 1)) ∧
    (∀ (st : WalkState) (pieceId : String) (p : Piece),
      p ∈ (removePiece pieceId st).pieces → p ∈ st.pieces ∧ p.id ≠ pieceId) := by
  have hadd : ∀ (st : WalkState) (point : Coordinate) (newId : String),
      (addPiece point newId st).pieces.map (fun p => p.order) =
        (st.pieces.map (fun p => p.order)) ++ [st.pieces.length + 1] := by
    intro st point newId
    simp [addPiece]
  refine ⟨hadd, ?_, ?_⟩
  · intro st point newId hdense
    rw [hadd st point newId, hdense, List.range_succ, List.map_append]
    rfl
  · intro st pieceId p hp
    have hp2 : p ∈ st.pieces.filter (fun piece => piece.id ≠ pieceId) := hp
    simpa using List.mem_filter.mp hp2

/-- Closed witness for `pieceOrder_add_remove_spec`: adding to the dense
two-piece state yields orders 1..3, and the survivor of a removal keeps its
identity. -/
theorem pieceOrder_add_remove_spec_witness :
    ((addPiece { lat := 0, lng := 0 } "c" stTwoPieces).pieces.map (fun p => p.order) =
      (List.range (stTwoPieces.pieces.length + 1)).map (fun i => i + 1)) ∧
    (({ id := "b", lat := 0, lng := 0, order := 2, imageFragmentUrl := "" } : Piece) ∈
        stTwoPieces.pieces ∧
      ({ id := "b", lat := 0, lng := 0, order := 2, imageFragmentUrl := "" } : Piece).id ≠ "a") :=
  ⟨pieceOrder_add_remove_spec.2.1 stTwoPieces { lat := 0, lng := 0 } "c" rfl,
   pieceOrder_add_remove_spec.2.2 stTwoPieces "a"
     { id := "b", lat := 0, lng := 0, order := 2, imageFragmentUrl := "" }
     (by
       have h : (removePiece "a" stTwoPieces).pieces =
           [{ id := "b", lat := 0, lng := 0, order := 2, imageFragmentUrl := "" }] := rfl
       rw [h]
       exact List.mem_singleton.mpr rfl)⟩

/-- Embedding of the slice-cache key built by the re-slice effect:
`` `${puzzleImageUrl.length}:${pieces.length}:${cols}x${rows}` `` with `cols`
and `rows` from `computeGrid(pieces.length)`.  Note the source keys the image
by the LENGTH of its data-url string, not by the string itself. -/
noncomputable def sliceKey (puzzleImageUrl : String) (piecesLength : ℕ) : String :=
  toString puzzleImageUrl.length ++ ":" ++ toString piecesLength ++ ":" ++
    toString (computeGrid piecesLength).cols ++ "x" ++
    toString (computeGrid piecesLength).rows

/-- Embedding of the re-slice `useEffect`: returns whether `sliceImage` is
invoked (fragments recomputed) and the value of `lastSliceRef.current` after
the run.  Early return when the image url is empty or there are no pieces;
no-op when the freshly computed key equals the cached one; otherwise the key
is stored and a recompute happens. -/
noncomputable def sliceEffect (puzzleImageUrl : String) (piecesLength : ℕ)
    (lastSliceKey : String) : Bool × String :=
  if puzzleImageUrl = "" ∨ piecesLength = 0 then (false, lastSliceKey)
  else if lastSliceKey = sliceKey puzzleImageUrl piecesLength then (false, lastSliceKey)
  else (true, sliceKey puzzleImageUrl piecesLength)

/-- C5 (counterexample): replacing the image `"ab"` by the different image
`"cd"` with the same piece count and grid does NOT trigger a recompute,
because both data-urls have length 2 and the cache key only records the url
length: the effect returns `false` (no re-slice) on the changed image. -/
theorem sliceCache_identity_cex :
    ("ab" : String) ≠ "cd" ∧
    sliceEffect "cd" 1 (sliceKey "ab" 1) = (false, sliceKey "ab" 1) := by
  refine ⟨by decide, ?_⟩
  have hkey : sliceKey "ab" 1 = sliceKey "cd" 1 := rfl
  unfold sliceEffect
  rw [if_neg (by simp), if_pos hkey]

/-- C5 (amended): the effect is a no-op whenever the cached key equals the
fresh key (in particular for an unchanged (image, piece count, grid) triple),
and recomputes exactly when the key differs (given a non-empty image and at
least one piece); but the key records only the LENGTH of the image url
together with the piece count and grid, so any two images whose urls share a
length produce the same key and are treated as the same image identity. -/
theorem sliceCache_spec (puzzleImageUrl : String) (piecesLength : ℕ)
    (lastSliceKey : String) :
    (lastSliceKey = sliceKey puzzleImageUrl piecesLength →
      sliceEffect puzzleImageUrl piecesLength lastSliceKey = (false, lastSliceKey)) ∧
    (puzzleImageUrl ≠ "" → piecesLength ≠ 0 →
      lastSliceKey ≠ sliceKey puzzleImageUrl piecesLength →
      sliceEffect puzzleImageUrl piecesLength lastSliceKey =
        (true, sliceKey puzzleImageUrl piecesLength)) ∧
    (∀ other : String, other.length = puzzleImageUrl.length →
      sliceKey other piecesLength = sliceKey puzzleImageUrl piecesLength) := by
  refine ⟨?_, ?_, ?_⟩
  · intro h
    unfold sliceEffect
    by_cases hg : puzzleImageUrl = "" ∨ piecesLength = 0
    · rw [if_pos hg]
    · rw [if_neg hg, if_pos h]
  · intro h1 h2 h3
    unfold sliceEffect
    rw [if_neg (by simp [h1, h2]), if_neg h3]
  · intro other h
    unfold sliceKey
    rw [h]

/-- Length-2 image urls produce the key `2:1:1x1` for a single piece. -/
lemma sliceKey_ab_eval : sliceKey "ab" 1 = "2:1:1x1" := by
  unfold sliceKey
  rw [computeGrid_one]
  rfl

/-- Closed witness for `sliceCache_spec`: a cache hit, a cache miss, and a
key collision between distinct equal-length urls. -/
theorem sliceCache_spec_witness :
    sliceEffect "ab" 1 (sliceKey "ab" 1) = (false, sliceKey "ab" 1) ∧
    sliceEffect "ab" 1 "" = (true, sliceKey "ab" 1) ∧
    sliceKey "cd" 1 = sliceKey "ab" 1 :=
  ⟨(sliceCache_spec "ab" 1 (sliceKey "ab" 1)).1 rfl,
   (sliceCache_spec "ab" 1 "").2.1 (by decide) (by decide)
     (by rw [sliceKey_ab_eval]; decide),
   (sliceCache_spec "ab" 1 "").2.2 "cd" (by decide)⟩
